import Mathlib

/-!
Verification of the directory-layout resolver and repair-tool lifecycle of
the cerberus experiment harness.  Paths are modelled as lists of characters
(Python `str`), the host filesystem as an association list mapping a
directory path to the list of entry names it contains plus an association
list mapping a file path to its lines.  Each definition mirrors the
corresponding Python function from `app/core/task/dir_info.py`,
`app/drivers/tools/repair/AbstractRepairTool.py` and
`app/drivers/tools/repair/java/ARJA_E.py`.
-/

/-- A filesystem path / Python string, modelled as its character list. -/
abbrev Str := List Char

/-- `hasPre p h` : `p` is a prefix of `h` (character-wise). -/
def hasPre : Str → Str → Bool
  | [], _ => true
  | _ :: _, [] => false
  | p :: ps, h :: hs => p == h && hasPre ps hs

/-- `hasSub pat hay` : Python's `pat in hay` substring test. -/
def hasSub (pat : Str) : Str → Bool
  | [] => hasPre pat []
  | c :: hs => hasPre pat (c :: hs) || hasSub pat hs

/-- Model of Python `os.path.join(a, b)` for the relative second components
used throughout `dir_info.py`: the result is `b` when `a` is empty, and
otherwise `a` and `b` glued with exactly one `/` separator. -/
def pjoin (a b : Str) : Str :=
  if a = [] then b
  else if a.getLast? = some '/' then a ++ b
  else a ++ '/' :: b

/-- The host filesystem: directories with their entry listings and files
with their lines.  Only what the resolver and lifecycle observe. -/
structure FS where
  dirs : List (Str × List Str)
  files : List (Str × List Str)
deriving DecidableEq, Repr

/-- Association-list lookup (first binding wins, like a Python dict). -/
def alookup : List (Str × List Str) → Str → Option (List Str)
  | [], _ => none
  | (k, v) :: rest, key => if k = key then some v else alookup rest key

/-- `os.path.isdir` on the modelled filesystem. -/
def isDir (fs : FS) (p : Str) : Bool := (alookup fs.dirs p).isSome

/-- `os.path.isfile` on the modelled filesystem. -/
def isFile (fs : FS) (p : Str) : Bool := (alookup fs.files p).isSome

/-- `os.listdir` (the tool helper `list_dir`): entries of a directory. -/
def listDir (fs : FS) (p : Str) : List Str := (alookup fs.dirs p).getD []

/-- `read_file`: the lines of a file (each line keeps its `"\n"`). -/
def readFile (fs : FS) (p : Str) : List Str := (alookup fs.files p).getD []

/-- `os.makedirs(p, exist_ok=True)`: ensure directory `p` exists; an
existing directory (and its contents) is left untouched. -/
def makedirs (p : Str) (fs : FS) : FS :=
  if isDir fs p then fs else { fs with dirs := fs.dirs ++ [(p, [])] }

/-- `shutil.rmtree`: remove a directory. -/
def rmtree (p : Str) (fs : FS) : FS :=
  { fs with dirs := fs.dirs.filter (fun kv => !(kv.1 == p)) }

/-- Replace (or add) the listing of directory `p`. -/
def setDir (p : Str) (l : List Str) (fs : FS) : FS :=
  if isDir fs p then
    { fs with dirs := fs.dirs.map (fun kv => if kv.1 = p then (p, l) else kv) }
  else { fs with dirs := fs.dirs ++ [(p, l)] }

/-- `generate_local_dir_info`'s creation loop: guarded `makedirs` over a
list of directories, in order. -/
def makedirsList (l : List Str) (fs : FS) : FS :=
  l.foldl (fun f p => makedirs p f) fs

/-- A role → path mapping, the `Dict[str, str]` returned by the resolver
(association list in insertion order, like a Python dict). -/
abbrev RoleMap := List (String × Str)

/-- Python dict lookup on a `RoleMap`. -/
def lookupRole : RoleMap → String → Option Str
  | [], _ => none
  | (k, v) :: rest, key => if k = key then some v else lookupRole rest key

/-- Python dict assignment `m[k] = v`: replace the value at an existing key
in place, or append the new key at the end. -/
def setk : RoleMap → String → Str → RoleMap
  | [], k, v => [(k, v)]
  | (k0, v0) :: rest, k, v =>
      if k0 = k then (k0, v) :: rest else (k0, v0) :: setk rest k v

/-- Modelled from the spec: the process-wide root-path configuration
(`app.core.values`, not among the sources) — "fixed root constants
(process-wide configuration: benchmark root, experiment root, logs root,
artifacts root, results root — set once at process start, read-only
thereafter)". -/
def dir_benchmark : Str := "/cerberus/benchmark".toList

/-- Modelled from the spec: experiments root constant of `app.core.values`. -/
def dir_experiments : Str := "/cerberus/experiments".toList

/-- Modelled from the spec: logs root constant of `app.core.values`. -/
def dir_logs : Str := "/cerberus/logs".toList

/-- Modelled from the spec: artifacts root constant of `app.core.values`. -/
def dir_artifacts : Str := "/cerberus/artifacts".toList

/-- Modelled from the spec: results root constant of `app.core.values`. -/
def dir_results : Str := "/cerberus/results".toList

/-- Modelled from the spec: container-side experiment root constant of
`app.core.values` (the container sees a fixed canonical layout). -/
def container_base_experiment : Str := "/experiment".toList

/-- `generate_local_dir_info` from `app/core/task/dir_info.py`: build the
local role map for `(benchmark, subject, bug, tag)` and ensure the nine
local directories exist.  The state-passing pair returns the filesystem
after the `os.makedirs` loop together with the returned dict.  The
on-disk check for the tag-extended setup directory (`os.path.exists`) is
modelled as directory existence. -/
def generate_local_dir_info (fs : FS)
    (benchmark_name subject_name bug_name tag : Str) : FS × RoleMap :=
  let dir_path := pjoin (pjoin (pjoin benchmark_name subject_name) bug_name) []
  let dir_exp_local := pjoin dir_experiments dir_path
  let dir_setup_untagged := pjoin dir_benchmark dir_path
  let dir_path_extended :=
    pjoin (pjoin (pjoin benchmark_name subject_name) (bug_name ++ '-' :: tag)) []
  let dir_setup_extended := pjoin dir_benchmark dir_path_extended
  let dir_setup_local :=
    if tag ≠ [] then
      (if isDir fs dir_setup_extended then dir_setup_extended else dir_setup_untagged)
    else dir_setup_untagged
  let dir_bugs_local := pjoin dir_setup_local "bugs".toList
  let dir_localization_local := pjoin dir_setup_local "localization".toList
  let dir_patches_local := pjoin dir_setup_local "patches".toList
  let dir_validation_local := pjoin dir_setup_local "validation".toList
  let dir_selection_local := pjoin dir_setup_local "selection".toList
  let dir_aux_local :=
    pjoin (pjoin (pjoin dir_benchmark benchmark_name) subject_name) ".aux".toList
  let dir_base_local :=
    pjoin (pjoin (pjoin dir_benchmark benchmark_name) subject_name) "base".toList
  let dir_logs_local := pjoin dir_logs dir_path
  let dir_artifact_local := pjoin dir_artifacts dir_path
  let fs1 := makedirsList [dir_exp_local, dir_setup_local, dir_aux_local,
    dir_base_local, dir_bugs_local, dir_patches_local, dir_localization_local,
    dir_validation_local, dir_selection_local] fs
  (fs1,
    [("logs", dir_logs_local), ("artifacts", dir_artifact_local),
     ("experiment", dir_exp_local), ("setup", dir_setup_local),
     ("base", dir_base_local), ("aux", dir_aux_local),
     ("patches", dir_patches_local), ("localization", dir_localization_local),
     ("selection", dir_selection_local), ("validation", dir_validation_local),
     ("bugs", dir_bugs_local)])

/-- The run-directory name `f"{task_identifier}-{hash.hexdigest()[:8]}"`
synthesized in `generate_local_tool_dir_info`; the hash argument is
modelled by its hex digest string. -/
def run_dir_name (task_identifier hexdigest : Str) : Str :=
  task_identifier ++ '-' :: hexdigest.take 8

/-- `generate_local_tool_dir_info` from `app/core/task/dir_info.py`:
extend the local role map with the run-scoped `logs`/`artifacts`/`results`
roles under the run-directory name and `os.makedirs(..., exist_ok=True)`
the three run directories. -/
def generate_local_tool_dir_info (fs : FS)
    (benchmark_name subject_name bug_name : Str)
    (hexdigest task_identifier tag : Str) : FS × RoleMap :=
  let dir_name := run_dir_name task_identifier hexdigest
  let r := generate_local_dir_info fs benchmark_name subject_name bug_name tag
  let dir_result_local := pjoin dir_results dir_name
  let dir_log_local := pjoin dir_logs dir_name
  let dir_artifact_local := pjoin dir_artifacts dir_name
  let fs2 := makedirsList [dir_log_local, dir_result_local, dir_artifact_local] r.1
  (fs2,
    setk (setk (setk r.2 "logs" dir_log_local) "artifacts" dir_artifact_local)
      "results" dir_result_local)

/-- `generate_container_dir_info` from `app/core/task/dir_info.py`: the
container-side role map, a function of `(benchmark, subject, bug)` only. -/
def generate_container_dir_info
    (benchmark_name subject_name bug_name : Str) : RoleMap :=
  let dir_path := pjoin (pjoin (pjoin benchmark_name subject_name) bug_name) []
  let dir_setup_container := pjoin "/setup".toList dir_path
  let dir_exp_container := pjoin container_base_experiment dir_path
  let dir_aux_container := pjoin dir_exp_container ".aux".toList
  let dir_base_container := pjoin dir_exp_container "base".toList
  [("logs", "/logs".toList), ("artifacts", "/output".toList),
   ("experiment", dir_exp_container), ("setup", dir_setup_container),
   ("base", dir_base_container), ("aux", dir_aux_container)]

/-- The `DirectoryInfo` dict of `dir_info.py`: the two parallel
namespaces. -/
structure DirectoryInfo where
  local_ns : RoleMap
  container_ns : RoleMap
deriving DecidableEq, Repr

/-- `generate_dir_info` from `app/core/task/dir_info.py`. -/
def generate_dir_info (fs : FS) (benchmark_name subject_name bug_name tag : Str) :
    FS × DirectoryInfo :=
  let r := generate_local_dir_info fs benchmark_name subject_name bug_name tag
  (r.1, ⟨r.2, generate_container_dir_info benchmark_name subject_name bug_name⟩)

/-- `generate_tool_dir_info` from `app/core/task/dir_info.py`. -/
def generate_tool_dir_info (fs : FS) (benchmark_name subject_name bug_name : Str)
    (hexdigest task_identifier tag : Str) : FS × DirectoryInfo :=
  let r := generate_local_tool_dir_info fs benchmark_name subject_name bug_name
    hexdigest task_identifier tag
  (r.1, ⟨r.2, generate_container_dir_info benchmark_name subject_name bug_name⟩)

/-- Patch-generation counters of the stats record.  Modelled from the spec:
`RepairToolStats` lives in `app.core.task.stats` (not among the sources);
the spec's `patch_stats` group is "generated count, enumerations count,
plausible count, non-compilable count, size", all starting at zero. -/
structure PatchStats where
  non_compilable : Nat := 0
  plaus : Nat := 0
  size : Nat := 0
  enumerations : Nat := 0
  generated : Nat := 0
deriving DecidableEq, Repr

/-- Modelled from the spec: the `time_stats` group of the stats record
(only the timestamp markers the modelled code writes). -/
structure TimeStats where
  timestamp_start : Str := []
  timestamp_end : Str := []
deriving DecidableEq, Repr

/-- Modelled from the spec: the `RepairToolStats` record, "created empty at
driver construction, mutated only by `analyse_output`". -/
structure RepairToolStats where
  patch_stats : PatchStats := {}
  time_stats : TimeStats := {}
deriving DecidableEq, Repr

/-- `AbstractRepairTool.analyse_output` from
`app/drivers/tools/repair/AbstractRepairTool.py`: the generic fallback.
It reads no log at all (so a missing or unreadable log cannot make it
fail); it counts the entries of the tool's patch directory when that
directory exists and otherwise leaves the stats untouched, then returns
the run's stats record. -/
def abstractRepair_analyse_output (fs : FS) (dir_patch : Str)
    (stats : RepairToolStats) : RepairToolStats :=
  if isDir fs dir_patch then
    { stats with patch_stats :=
        { stats.patch_stats with generated := (listDir fs dir_patch).length } }
  else stats

/-- The final path component, as `cp -rf` names the copy of a source
directory placed inside an existing destination directory. -/
def pbasename (p : Str) : Str := (p.reverse.takeWhile (fun c => c ≠ '/')).reverse

/-- `cp -rf src dst`: if `dst` does not exist it becomes a copy of the
source directory; if `dst` exists as a directory, the source directory is
copied inside it (so `dst` gains the entry `pbasename src` and keeps its
old entries — the merge behaviour the preceding `rmtree` exists to avoid). -/
def cp_rf (src dst : Str) (fs : FS) : FS :=
  match alookup fs.dirs dst with
  | some l =>
      let b := pbasename src
      setDir dst (if l.contains b then l else l ++ [b]) fs
  | none =>
      match alookup fs.dirs src with
      | some ls => setDir dst ls fs
      | none => fs

/-- Modelled from the spec: the Container Operations interface's
`copy_file_from_container(container_id, source, dest)` (module
`app.core.container`, not among the sources) — copies a path out of the
container filesystem `cfs` onto the host. -/
def copy_file_from_container (cfs : Str → Option (List Str)) (src dst : Str)
    (fs : FS) : FS :=
  match cfs src with
  | some l => setDir dst l fs
  | none => fs

/-- `AbstractRepairTool.save_artifacts` from
`app/drivers/tools/repair/AbstractRepairTool.py`: if the layout has an
existing `patches` role directory, remove any previous
`patches/{tool_name}` directory and copy the tool's working patch
directory there (via the container interface when a container is active,
else `cp -rf`).  The final `super().save_artifacts(dir_info)` call
(`AbstractTool`, not among the sources) archives logs/output into the
host-only `results` directory; per the spec it does not touch the
`patches` role, so it is not part of the modelled directory state. -/
def save_artifacts (cfs : Str → Option (List Str)) (fs : FS)
    (dir_info : RoleMap) (name : Str) (container_id : Option Str)
    (dir_patch : Str) : FS :=
  let base_dir_patches := (lookupRole dir_info "patches").getD []
  if isDir fs base_dir_patches then
    let dir_patches := pjoin base_dir_patches name
    let fs1 := if isDir fs dir_patches then rmtree dir_patches fs else fs
    match container_id with
    | some _ => copy_file_from_container cfs dir_patch dir_patches fs1
    | none => if dir_patch ≠ [] then cp_rf dir_patch dir_patches fs1 else fs1
  else fs

/-- Python's `line.replace("\n", "")`. -/
def removeNl (s : Str) : Str := s.filter (fun c => c ≠ '\n')

/-- The ARJA-E log line marking one finished fitness evaluation. -/
def fitness_line : Str := "One fitness evaluation is finished".toList

/-- The ARJA-E log line marking a plausible patch. -/
def failed_zero_line : Str := "failed tests: 0".toList

/-- `ARJA_E.analyse_output` from
`app/drivers/tools/repair/java/ARJA_E.py`.  Returns `none` exactly where
the Python raises (`log_lines[0]` on an empty readable log); otherwise the
updated stats.  The two successive writes to `generated` (the `.patch`
count over the output directory, then the `.txt` count over the patch
directory) are kept in source order. -/
def arja_e_analyse_output (fs : FS) (use_valkyrie : Bool)
    (dir_output log_output_path : Str) (stats : RepairToolStats) :
    Option RepairToolStats :=
  let list_output_dir := listDir fs dir_output
  let stats1 := { stats with patch_stats := { stats.patch_stats with
      generated :=
        (list_output_dir.filter (fun n => hasSub ".patch".toList n)).length } }
  if log_output_path = [] ∨ isFile fs log_output_path = false then some stats1
  else
    match readFile fs log_output_path with
    | [] => none
    | first :: rest =>
        let log_lines := first :: rest
        let stats2 := { stats1 with time_stats :=
            { timestamp_start := removeNl first,
              timestamp_end := removeNl (log_lines.getLast (by simp)) } }
        let counts := log_lines.foldl (fun (c : Nat × Nat) line =>
            if hasSub fitness_line line then (c.1 + 1, c.2)
            else if hasSub failed_zero_line line then (c.1, c.2 + 1)
            else c) (0, 0)
        let dirP := pjoin dir_output
          (if use_valkyrie then "patch-valid".toList else "patches".toList)
        some { stats2 with patch_stats := { stats2.patch_stats with
            generated :=
              ((listDir fs dirP).filter (fun x => hasSub ".txt".toList x)).length,
            enumerations := counts.1,
            plaus := counts.2 } }

/-- The bug metadata fields `ARJA_E.invoke` reads. -/
structure ArjaBugInfo where
  dir_source : Str
  dir_tests : Str
  dir_class : Str
  dir_test_class : Str
  passing_test_identifiers : List Str
  failing_test_identifiers : List Str
  dependencies : List Str
  java_version : Str
deriving DecidableEq, Repr

/-- `ARJA_E.arja_e_home`. -/
def arja_e_home : Str := "/opt/arja".toList

/-- `arja_default_population_size = 40` in `ARJA_E.invoke`. -/
def arja_default_population_size : Nat := 40

/-- `max_generations = 0x7FFFFFFF // (arja_default_population_size + 1)`
in `ARJA_E.invoke`. -/
def max_generations : Nat := 0x7FFFFFFF / (arja_default_population_size + 1)

/-- `test_timeout = 20` in `ARJA_E.invoke`. -/
def test_timeout : Nat := 20

/-- `repair_timeout = int(datetime.timedelta(days=365).total_seconds() // 60)`
in `ARJA_E.invoke`. -/
def repair_timeout : Nat := 365 * 24 * 60 * 60 / 60

/-- Decimal rendering of a number interpolated into an f-string. -/
def natChars (n : Nat) : Str := (Nat.repr n).toList

/-- Python `sep.join(parts)`. -/
def joinSep (sep : Char) : List Str → Str
  | [] => []
  | x :: xs =>
      match xs with
      | [] => x
      | _ :: _ => x ++ sep :: joinSep sep xs

/-- The classpath `f"{join(arja_e_home, 'lib/*')}:{join(arja_e_home, 'bin')}"`. -/
def arja_classpath : Str :=
  pjoin arja_e_home "lib/*".toList ++ ':' :: pjoin arja_e_home "bin".toList

/-- The dependency classpath `":".join(list_deps)` of `ARJA_E.invoke`. -/
def arja_deps_str (bug_info : ArjaBugInfo) (dir_expr : Str) : Str :=
  joinSep ':' ((bug_info.dependencies.map (fun dep => pjoin dir_expr dep)) ++
    [pjoin (pjoin (pjoin arja_e_home "external".toList) "lib".toList)
        "hamcrest-core-1.3.jar".toList,
     pjoin (pjoin (pjoin arja_e_home "external".toList) "lib".toList)
        "junit-4.12.jar".toList])

/-- The command pieces of `ARJA_E.invoke` before the `-DmaxGenerations`
flag, in source order. -/
def arja_cmd_head (bug_info : ArjaBugInfo) (timeout_h dir_expr : Str) : Str :=
  "timeout -k 5m ".toList ++ timeout_h ++ "h java -cp ".toList ++ arja_classpath ++
  " us.msu.cse.repair.Main ArjaE ".toList ++
  "-DsrcJavaDir ".toList ++ pjoin (pjoin dir_expr "src".toList) bug_info.dir_source ++
  " ".toList ++
  "-DbinJavaDir ".toList ++ pjoin (pjoin dir_expr "src".toList) bug_info.dir_class ++
  " ".toList ++
  "-DbinTestDir ".toList ++ pjoin (pjoin dir_expr "src".toList) bug_info.dir_test_class ++
  " ".toList ++
  "-DdiffFormat true ".toList ++
  " -DsrcVersion=".toList ++ bug_info.java_version ++ " ".toList ++
  "-DexternalProjRoot ".toList ++ arja_e_home ++ "/external ".toList ++
  "-DwaitTime ".toList ++ natChars test_timeout ++ " ".toList

/-- The command pieces of `ARJA_E.invoke` between the `-DmaxGenerations`
and `-DpopulationSize` flags, in source order. -/
def arja_cmd_mid (bug_info : ArjaBugInfo) (dir_expr dir_output : Str) : Str :=
  "-DpatchOutputRoot ".toList ++ dir_output ++ "/patches ".toList ++
  "-Ddependences ".toList ++ arja_deps_str bug_info dir_expr ++ " ".toList ++
  "-DmaxTime ".toList ++ natChars repair_timeout ++ " ".toList

/-- The final command piece of `ARJA_E.invoke`
(`-DgzoltarDataDir {dir_output}/localization `). -/
def arja_cmd_tail (dir_output : Str) : Str :=
  "-DgzoltarDataDir ".toList ++ (dir_output ++ "/localization".toList) ++ " ".toList

/-- The fixed part of the repair command `ARJA_E.invoke` constructs (every
piece before the conditional `-Dtests` suffix), in source order. -/
def arja_e_command_base (bug_info : ArjaBugInfo)
    (timeout_h dir_expr dir_output : Str) : Str :=
  arja_cmd_head bug_info timeout_h dir_expr ++
  ("-DmaxGenerations ".toList ++ natChars max_generations ++ " ".toList) ++
  arja_cmd_mid bug_info dir_expr dir_output ++
  ("-DpopulationSize ".toList ++ natChars arja_default_population_size ++ " ".toList) ++
  arja_cmd_tail dir_output

/-- The full repair command of `ARJA_E.invoke`: the base command plus the
`" -Dtests {joined failing tests}"` suffix appended exactly when the
passing-test identifier list is empty. -/
def arja_e_command (bug_info : ArjaBugInfo)
    (timeout_h dir_expr dir_output : Str) : Str :=
  let base := arja_e_command_base bug_info timeout_h dir_expr dir_output
  if bug_info.passing_test_identifiers = [] then
    base ++ " -Dtests ".toList ++ joinSep ',' bug_info.failing_test_identifiers
  else base

/-- The tag-extended ("shadow") setup directory
`{benchmark}/{subject}/{bug}-{tag}/` under the benchmark root checked by
`generate_local_dir_info`. -/
def shadow_path (b s bug tag : Str) : Str :=
  pjoin dir_benchmark (pjoin (pjoin (pjoin b s) (bug ++ '-' :: tag)) [])

/-- The untagged setup directory `{benchmark}/{subject}/{bug}/` under the
benchmark root. -/
def untagged_setup (b s bug : Str) : Str :=
  pjoin dir_benchmark (pjoin (pjoin (pjoin b s) bug) [])

/-- The effective setup root chosen by `generate_local_dir_info`. -/
def setup_choice (fs : FS) (b s bug tag : Str) : Str :=
  if tag ≠ [] then
    (if isDir fs (shadow_path b s bug tag) then shadow_path b s bug tag
     else untagged_setup b s bug)
  else untagged_setup b s bug

/-- The nine local directories `generate_local_dir_info` creates, in the
order of its `os.makedirs` loop. -/
def local_dirs_created (fs : FS) (b s bug tag : Str) : List Str :=
  [pjoin dir_experiments (pjoin (pjoin (pjoin b s) bug) []),
   setup_choice fs b s bug tag,
   pjoin (pjoin (pjoin dir_benchmark b) s) ".aux".toList,
   pjoin (pjoin (pjoin dir_benchmark b) s) "base".toList,
   pjoin (setup_choice fs b s bug tag) "bugs".toList,
   pjoin (setup_choice fs b s bug tag) "patches".toList,
   pjoin (setup_choice fs b s bug tag) "localization".toList,
   pjoin (setup_choice fs b s bug tag) "validation".toList,
   pjoin (setup_choice fs b s bug tag) "selection".toList]

theorem pjoin_getLast?_of_ne_nil (a b : Str) (hb : b ≠ []) :
    (pjoin a b).getLast? = b.getLast? := by
  have hs : b.getLast?.isSome := List.getLast?_isSome.mpr hb
  unfold pjoin
  split
  · rfl
  · split
    · rw [List.getLast?_append, Option.or_of_isSome hs]
    · rw [show a ++ '/' :: b = a ++ ('/' :: b) from rfl, List.getLast?_append]
      have hs2 : ('/' :: b).getLast?.isSome := List.getLast?_isSome.mpr (by simp)
      rw [Option.or_of_isSome hs2]
      cases b with
      | nil => exact absurd rfl hb
      | cons c cs => rw [List.getLast?_cons_cons]

theorem pjoin_nil_right_getLast? (a : Str) (ha : a ≠ []) :
    (pjoin a []).getLast? = some '/' := by
  unfold pjoin
  simp only [ha, if_false]
  split
  · simpa using ‹a.getLast? = some '/'›
  · rw [List.getLast?_append]
    rfl

theorem pjoin_eq_nil_iff (a b : Str) : pjoin a b = [] ↔ a = [] ∧ b = [] := by
  unfold pjoin
  split
  · simp [*]
  · split <;> simp [*]

theorem pjoin_length_le (a b : Str) :
    (pjoin a b).length ≤ a.length + b.length + 1 := by
  unfold pjoin
  split
  · omega
  · split <;> simp only [List.length_append, List.length_cons] <;> omega

theorem pjoin_length_ge (a b : Str) :
    a.length + b.length ≤ (pjoin a b).length := by
  unfold pjoin
  split
  · simp_all
  · split <;> simp only [List.length_append, List.length_cons] <;> omega

theorem pjoin_tag_length (q bug tag : Str) :
    (pjoin q (bug ++ '-' :: tag)).length = (pjoin q bug).length + 1 + tag.length := by
  unfold pjoin
  split
  · simp only [List.length_append, List.length_cons]; omega
  · split <;> simp only [List.length_append, List.length_cons] <;> omega

theorem alookup_append (l₁ l₂ : List (Str × List Str)) (k : Str) :
    alookup (l₁ ++ l₂) k = ((alookup l₁ k).orElse (fun _ => alookup l₂ k)) := by
  induction l₁ with
  | nil => simp [alookup]
  | cons kv rest ih =>
      simp only [List.cons_append, alookup]
      split <;> simp [ih]

theorem isDir_makedirs (p : Str) (fs : FS) (q : Str) :
    isDir (makedirs p fs) q = (isDir fs q || q == p) := by
  unfold makedirs
  split
  · rename_i h
    by_cases hq : q = p
    · subst hq; simp [h]
    · simp [hq]
  · simp only [isDir, alookup_append]
    cases hl : alookup fs.dirs q with
    | some v => simp [isDir, hl, Option.orElse]
    | none =>
        simp only [isDir, hl, Option.orElse]
        by_cases hq : q = p
        · subst hq; simp [alookup]
        · have hpq : p ≠ q := fun h => hq h.symm
          simp [alookup, hq, hpq]

theorem makedirs_of_isDir (p : Str) (fs : FS) (h : isDir fs p) :
    makedirs p fs = fs := by
  unfold makedirs; simp [h]

theorem listDir_makedirs_of_isDir (p : Str) (fs : FS) (q : Str)
    (h : isDir fs q) : listDir (makedirs p fs) q = listDir fs q := by
  unfold makedirs
  split
  · rfl
  · rename_i hp
    simp only [listDir, alookup_append]
    cases hl : alookup fs.dirs q with
    | some v => simp [hl, Option.orElse]
    | none => simp [isDir, hl] at h

theorem files_makedirs (p : Str) (fs : FS) : (makedirs p fs).files = fs.files := by
  unfold makedirs; split <;> rfl

theorem isDir_makedirsList (l : List Str) (fs : FS) (q : Str) :
    isDir (makedirsList l fs) q = (isDir fs q || l.contains q) := by
  induction l generalizing fs with
  | nil => simp [makedirsList]
  | cons p rest ih =>
      simp only [makedirsList, List.foldl_cons] at *
      rw [ih (makedirs p fs), isDir_makedirs]
      cases hd : (q == p) with
      | false =>
          have hne : ¬ q = p := by simpa using hd
          simp [List.contains_cons, hd, hne, Bool.or_assoc]
      | true =>
          have heq : q = p := by simpa using hd
          simp [List.contains_cons, hd, heq]

theorem makedirsList_of_all_isDir (l : List Str) (fs : FS)
    (h : ∀ p ∈ l, isDir fs p) : makedirsList l fs = fs := by
  induction l with
  | nil => rfl
  | cons p rest ih =>
      simp only [makedirsList, List.foldl_cons]
      rw [makedirs_of_isDir p fs (h p (by simp))]
      exact ih (fun q hq => h q (by simp [hq]))

theorem listDir_makedirsList_of_isDir (l : List Str) (fs : FS) (q : Str)
    (h : isDir fs q) : listDir (makedirsList l fs) q = listDir fs q := by
  induction l generalizing fs with
  | nil => rfl
  | cons p rest ih =>
      simp only [makedirsList, List.foldl_cons]
      rw [show (List.foldl (fun f p => makedirs p f) (makedirs p fs) rest) =
            makedirsList rest (makedirs p fs) from rfl]
      rw [ih (makedirs p fs) (by rw [isDir_makedirs]; simp [h]),
          listDir_makedirs_of_isDir p fs q h]

theorem files_makedirsList (l : List Str) (fs : FS) :
    (makedirsList l fs).files = fs.files := by
  induction l generalizing fs with
  | nil => rfl
  | cons p rest ih =>
      rw [show makedirsList (p :: rest) fs = makedirsList rest (makedirs p fs) from rfl]
      rw [ih (makedirs p fs), files_makedirs]

theorem lookupRole_setk (m : RoleMap) (k : String) (v : Str) (q : String) :
    lookupRole (setk m k v) q = if q = k then some v else lookupRole m q := by
  induction m with
  | nil =>
      by_cases hq : q = k
      · simp [setk, lookupRole, hq]
      · have hkq : ¬ k = q := fun h => hq h.symm
        simp [setk, lookupRole, hq, hkq]
  | cons kv rest ih =>
      obtain ⟨k0, v0⟩ := kv
      by_cases h0 : k0 = k
      · subst h0
        by_cases hq : q = k0
        · subst hq; simp [setk, lookupRole]
        · have h0q : ¬ k0 = q := fun h => hq h.symm
          simp [setk, lookupRole, hq, h0q]
      · simp only [setk, h0, if_false, lookupRole]
        by_cases hq : k0 = q
        · subst hq
          simp [lookupRole, h0]
        · simp [lookupRole, hq, ih]

theorem alookup_filter_ne (l : List (Str × List Str)) (p q : Str) (h : q ≠ p) :
    alookup (l.filter (fun kv => !(kv.1 == p))) q = alookup l q := by
  induction l with
  | nil => rfl
  | cons kv rest ih =>
      obtain ⟨k0, v0⟩ := kv
      by_cases hk : k0 = p
      · subst hk
        have hkq : ¬ k0 = q := fun hh => h hh.symm
        simp [List.filter_cons, alookup, hkq, ih]
      · simp [List.filter_cons, hk, alookup, ih]

theorem alookup_filter_self (l : List (Str × List Str)) (p : Str) :
    alookup (l.filter (fun kv => !(kv.1 == p))) p = none := by
  induction l with
  | nil => rfl
  | cons kv rest ih =>
      obtain ⟨k0, v0⟩ := kv
      by_cases hk : k0 = p
      · subst hk; simp [List.filter_cons, ih]
      · simp [List.filter_cons, hk, alookup, ih]

theorem filter_eq_self_of_alookup_none (l : List (Str × List Str)) (p : Str)
    (h : alookup l p = none) : l.filter (fun kv => !(kv.1 == p)) = l := by
  induction l with
  | nil => rfl
  | cons kv rest ih =>
      obtain ⟨k0, v0⟩ := kv
      simp only [alookup] at h
      by_cases hk : k0 = p
      · simp [hk] at h
      · simp only [hk, if_false] at h
        simp [List.filter_cons, hk, ih h]

theorem filter_append_single (l : List (Str × List Str)) (p : Str) (v : List Str) :
    (l ++ [(p, v)]).filter (fun kv => !(kv.1 == p)) =
      l.filter (fun kv => !(kv.1 == p)) := by
  simp [List.filter_append, List.filter_cons]

theorem hasPre_append_self (pat v : Str) : hasPre pat (pat ++ v) = true := by
  induction pat with
  | nil => rfl
  | cons c cs ih => simp [hasPre, ih]

theorem hasSub_append_right (pat u w : Str) (h : hasSub pat w = true) :
    hasSub pat (u ++ w) = true := by
  induction u with
  | nil => simpa
  | cons c cs ih => simp [hasSub, ih]

theorem hasSub_self_append (pat v : Str) : hasSub pat (pat ++ v) = true := by
  have hpre := hasPre_append_self pat v
  cases hp : pat ++ v with
  | nil =>
      have hpat : pat = [] := by
        cases pat with
        | nil => rfl
        | cons c cs => exact absurd hp (by simp)
      subst hpat
      simp [hasSub, hasPre]
  | cons c t =>
      rw [hp] at hpre
      simp [hasSub, hpre]

theorem hasSub_of_eq_append (pat hay u v : Str) (h : hay = u ++ pat ++ v) :
    hasSub pat hay = true := by
  subst h
  rw [List.append_assoc]
  exact hasSub_append_right pat u (pat ++ v) (hasSub_self_append pat v)

theorem countP_and_not_add (l : List Str) (p q : Str → Bool) :
    l.countP (fun x => q x && !p x) + l.countP (fun x => q x && p x) =
      l.countP q := by
  induction l with
  | nil => rfl
  | cons x xs ih =>
      simp only [List.countP_cons]
      cases hq : q x <;> cases hp : p x <;> simp [hq, hp] <;> omega

theorem arja_foldl_count (lines : List Str) (e p : Nat) :
    lines.foldl (fun (c : Nat × Nat) line =>
        if hasSub fitness_line line then (c.1 + 1, c.2)
        else if hasSub failed_zero_line line then (c.1, c.2 + 1)
        else c) (e, p) =
      (e + lines.countP (fun l => hasSub fitness_line l),
       p + lines.countP
            (fun l => hasSub failed_zero_line l && !hasSub fitness_line l)) := by
  induction lines generalizing e p with
  | nil => simp
  | cons x xs ih =>
      simp only [List.foldl_cons, List.countP_cons]
      cases hf : hasSub fitness_line x with
      | true =>
          simp only [hf, if_true, ih, Bool.and_true, Bool.not_true, Bool.and_false]
          simp
          omega
      | false =>
          cases hz : hasSub failed_zero_line x with
          | true =>
              simp only [hf, hz, if_false, if_true, ih, Bool.not_false,
                Bool.and_true, Bool.true_and]
              simp
              omega
          | false =>
              simp only [hf, hz, if_false, ih, Bool.false_and, Bool.and_false]
              simp

theorem hasSub_nil_pat (w : Str) : hasSub [] w = true := by
  cases w <;> simp [hasSub, hasPre]

theorem hasPre_mono (pat u w : Str) (h : hasPre pat u = true) :
    hasPre pat (u ++ w) = true := by
  induction pat generalizing u with
  | nil => rfl
  | cons p ps ih =>
      cases u with
      | nil => simp [hasPre] at h
      | cons c cs =>
          simp only [hasPre, Bool.and_eq_true] at h
          simp [hasPre, h.1, ih cs h.2]

theorem hasSub_append_left (pat u w : Str) (h : hasSub pat u = true) :
    hasSub pat (u ++ w) = true := by
  induction u with
  | nil =>
      have : pat = [] := by
        cases pat with
        | nil => rfl
        | cons p ps => simp [hasSub, hasPre] at h
      simp [this, hasSub_nil_pat]
  | cons c cs ih =>
      simp only [hasSub, Bool.or_eq_true] at h
      simp only [List.cons_append, hasSub, Bool.or_eq_true]
      rcases h with h | h
      · exact Or.inl (by simpa using hasPre_mono pat (c :: cs) w h)
      · exact Or.inr (by simpa using ih h)

theorem arja_e_command_of_passing_nil (bi : ArjaBugInfo) (th de do2 : Str)
    (hp : bi.passing_test_identifiers = []) :
    arja_e_command bi th de do2 =
      arja_e_command_base bi th de do2 ++ " -Dtests ".toList ++
        joinSep ',' bi.failing_test_identifiers := by
  simp [arja_e_command, hp]

theorem arja_e_command_of_passing_ne_nil (bi : ArjaBugInfo) (th de do2 : Str)
    (hp : bi.passing_test_identifiers ≠ []) :
    arja_e_command bi th de do2 = arja_e_command_base bi th de do2 := by
  simp [arja_e_command, hp]

/-- C10: in the command `ARJA_E.invoke` constructs, `-DmaxGenerations` is
`(2^31 - 1) / 41` and `-DpopulationSize` is `40`, so
`populationSize * maxGenerations` is at most `2^31 - 1` and cannot
overflow a signed 32-bit `int` inside ARJA. -/
theorem arja_no_int32_overflow :
    max_generations = (2 ^ 31 - 1) / 41 ∧
    arja_default_population_size = 40 ∧
    arja_default_population_size * max_generations ≤ 2 ^ 31 - 1 ∧
    ∀ (bug_info : ArjaBugInfo) (timeout_h dir_expr dir_output : Str),
      hasSub ("-DmaxGenerations ".toList ++ natChars max_generations ++ " ".toList)
        (arja_e_command bug_info timeout_h dir_expr dir_output) = true ∧
      hasSub ("-DpopulationSize ".toList ++
          natChars arja_default_population_size ++ " ".toList)
        (arja_e_command bug_info timeout_h dir_expr dir_output) = true := by
  refine ⟨by norm_num [max_generations, arja_default_population_size],
    rfl, by norm_num [max_generations, arja_default_population_size], ?_⟩
  intro bi th de dο
  have h1 : hasSub ("-DmaxGenerations ".toList ++ natChars max_generations ++
      " ".toList) (arja_e_command_base bi th de dο) = true := by
    refine hasSub_of_eq_append _ _ (arja_cmd_head bi th de)
      (arja_cmd_mid bi de dο ++
        ("-DpopulationSize ".toList ++ natChars arja_default_population_size ++
          " ".toList) ++ arja_cmd_tail dο) ?_
    simp [arja_e_command_base, List.append_assoc]
  have h2 : hasSub ("-DpopulationSize ".toList ++
      natChars arja_default_population_size ++ " ".toList)
      (arja_e_command_base bi th de dο) = true := by
    refine hasSub_of_eq_append _ _
      (arja_cmd_head bi th de ++
        ("-DmaxGenerations ".toList ++ natChars max_generations ++ " ".toList) ++
        arja_cmd_mid bi de dο) (arja_cmd_tail dο) ?_
    simp [arja_e_command_base, List.append_assoc]
  rcases Decidable.em (bi.passing_test_identifiers = []) with hp | hp
  · rw [arja_e_command_of_passing_nil bi th de dο hp, List.append_assoc,
      List.append_assoc]
    exact ⟨hasSub_append_left _ _ _ h1, hasSub_append_left _ _ _ h2⟩
  · rw [arja_e_command_of_passing_ne_nil bi th de dο hp]
    exact ⟨h1, h2⟩

/-- C9: `ARJA_E.invoke` appends the `" -Dtests {joined failing tests}"`
flag to the constructed command exactly when the passing-test identifier
list of the bug metadata is empty; with a non-empty passing list the
command is the base command, which contains no `-Dtests` flag. -/
theorem arja_dtests_flag (bug_info : ArjaBugInfo)
    (timeout_h dir_expr dir_output : Str) :
    (bug_info.passing_test_identifiers = [] →
      arja_e_command bug_info timeout_h dir_expr dir_output =
        arja_e_command_base bug_info timeout_h dir_expr dir_output ++
          " -Dtests ".toList ++ joinSep ',' bug_info.failing_test_identifiers) ∧
    (bug_info.passing_test_identifiers ≠ [] →
      arja_e_command bug_info timeout_h dir_expr dir_output =
        arja_e_command_base bug_info timeout_h dir_expr dir_output) ∧
    (bug_info.passing_test_identifiers ≠ [] →
      hasSub "-Dtests".toList
          (arja_e_command_base bug_info timeout_h dir_expr dir_output) = false →
      hasSub "-Dtests".toList
        (arja_e_command bug_info timeout_h dir_expr dir_output) = false) := by
  refine ⟨fun h => ?_, fun h => ?_, fun h hb => ?_⟩
  · exact arja_e_command_of_passing_nil _ _ _ _ h
  · exact arja_e_command_of_passing_ne_nil _ _ _ _ h
  · rw [arja_e_command_of_passing_ne_nil _ _ _ _ h]
    exact hb

set_option maxRecDepth 40000 in
theorem arja_dtests_flag_witness :
    (arja_e_command
        ⟨"sd".toList, "td".toList, "cd".toList, "tcd".toList, [],
          ["a.T1#m1".toList, "a.T2#m2".toList], [], "8".toList⟩
        "1".toList "/e".toList "/o".toList =
      arja_e_command_base
        ⟨"sd".toList, "td".toList, "cd".toList, "tcd".toList, [],
          ["a.T1#m1".toList, "a.T2#m2".toList], [], "8".toList⟩
        "1".toList "/e".toList "/o".toList ++
        " -Dtests ".toList ++
        joinSep ',' ["a.T1#m1".toList, "a.T2#m2".toList]) ∧
    hasSub "-Dtests".toList
      (arja_e_command
        ⟨"sd".toList, "td".toList, "cd".toList, "tcd".toList, ["p.T#m".toList],
          ["a.T1#m1".toList], [], "8".toList⟩
        "1".toList "/e".toList "/o".toList) = false := by
  constructor
  · exact (arja_dtests_flag _ _ _ _).1 rfl
  · exact (arja_dtests_flag _ _ _ _).2.2 (by simp) (by decide)

/-- C1 counterexample: two distinct content-hash digests agreeing on their
first 8 hex characters produce the same run-directory name, so a
different content hash does not always yield a different name. -/
theorem run_dir_name_truncation_collision :
    run_dir_name "arja-e".toList "a1b2c3d4ffffffff".toList =
      run_dir_name "arja-e".toList "a1b2c3d400000000".toList ∧
    ("a1b2c3d4ffffffff".toList : Str) ≠ "a1b2c3d400000000".toList := by
  constructor
  · rfl
  · decide

/-- C1 amended: the tool-scoped extension names the run directory exactly
`{task_identifier}-{first 8 hex chars of the digest}` (it is the `results`
run directory under the results root, and likewise for logs/artifacts);
the name is a deterministic function of `(task_identifier, digest)`, and
two digests yield distinct names exactly when their first 8 characters
differ (not merely when the digests differ). -/
theorem run_dir_name_spec (fs : FS) (b s bug tag t h : Str) :
    run_dir_name t h = t ++ '-' :: h.take 8 ∧
    lookupRole (generate_local_tool_dir_info fs b s bug h t tag).2 "results" =
      some (pjoin dir_results (run_dir_name t h)) ∧
    (∀ h₂, h.take 8 = h₂.take 8 → run_dir_name t h = run_dir_name t h₂) ∧
    (∀ h₂, h.take 8 ≠ h₂.take 8 → run_dir_name t h ≠ run_dir_name t h₂) := by
  refine ⟨rfl, ?_, ?_, ?_⟩
  · simp only [generate_local_tool_dir_info]
    rw [lookupRole_setk]
    simp
  · intro h2 he
    simp [run_dir_name, he]
  · intro h2 hne hc
    apply hne
    have hc' : '-' :: h.take 8 = '-' :: h2.take 8 := by
      simp only [run_dir_name] at hc
      exact List.append_cancel_left hc
    injection hc' with hh ht

theorem run_dir_name_spec_witness :
    run_dir_name "arja-e".toList "a1b2c3d4e5f6a7b8".toList =
      "arja-e-a1b2c3d4".toList ∧
    run_dir_name "arja-e".toList "a1b2c3d4ffffffff".toList ≠
      run_dir_name "arja-e".toList "a1b2c3d5ffffffff".toList := by
  constructor
  · rfl
  · exact (run_dir_name_spec ⟨[], []⟩ [] [] [] [] "arja-e".toList
      "a1b2c3d4ffffffff".toList).2.2.2 "a1b2c3d5ffffffff".toList (by decide)

/-- C5: the default `AbstractRepairTool.analyse_output` never fails on a
missing or unreadable log (it reads no log) and always returns the run's
stats record: with an existing patch directory, `generated` becomes the
number of entries in it; with the directory absent, the stats are
returned unchanged, so `generated` stays `0` for fresh stats. -/
theorem abstract_analyse_output_spec (fs : FS) (dir_patch : Str)
    (stats : RepairToolStats) :
    (isDir fs dir_patch = true →
      abstractRepair_analyse_output fs dir_patch stats =
        { stats with patch_stats := { stats.patch_stats with
            generated := (listDir fs dir_patch).length } }) ∧
    (isDir fs dir_patch = false →
      abstractRepair_analyse_output fs dir_patch stats = stats) ∧
    (isDir fs dir_patch = false →
      (abstractRepair_analyse_output fs dir_patch
          ({} : RepairToolStats)).patch_stats.generated = 0) := by
  refine ⟨fun h => ?_, fun h => ?_, fun h => ?_⟩
  · simp [abstractRepair_analyse_output, h]
  · simp [abstractRepair_analyse_output, h]
  · simp [abstractRepair_analyse_output, h]

theorem abstract_analyse_output_spec_witness :
    abstractRepair_analyse_output
        ⟨[("/p".toList, ["a".toList, "b".toList])], []⟩ "/p".toList {} =
      { patch_stats := { generated := 2 } } ∧
    abstractRepair_analyse_output
        ⟨[("/p".toList, ["a".toList, "b".toList])], []⟩ "/q".toList {} = {} := by
  constructor
  · rw [(abstract_analyse_output_spec
        ⟨[("/p".toList, ["a".toList, "b".toList])], []⟩ "/p".toList {}).1
        (by decide)]
    rfl
  · exact (abstract_analyse_output_spec
      ⟨[("/p".toList, ["a".toList, "b".toList])], []⟩ "/q".toList {}).2.1
      (by decide)

/-- C8: the container namespace depends only on
`(benchmark, subject, bug)` — the tag (and any host-side shadow state)
never changes it — with `logs` fixed to `/logs`, `artifacts` fixed to
`/output`, `setup` under `/setup/{benchmark}/{subject}/{bug}/`, and no
`results` role present. -/
theorem container_dir_info_spec (b s bug : Str) :
    lookupRole (generate_container_dir_info b s bug) "logs" =
      some "/logs".toList ∧
    lookupRole (generate_container_dir_info b s bug) "artifacts" =
      some "/output".toList ∧
    lookupRole (generate_container_dir_info b s bug) "setup" =
      some (pjoin "/setup".toList (pjoin (pjoin (pjoin b s) bug) [])) ∧
    lookupRole (generate_container_dir_info b s bug) "results" = none ∧
    ∀ (fs₁ fs₂ : FS) (tag₁ tag₂ : Str),
      (generate_dir_info fs₁ b s bug tag₁).2.container_ns =
        (generate_dir_info fs₂ b s bug tag₂).2.container_ns := by
  exact ⟨rfl, rfl, rfl, rfl, fun _ _ _ _ => rfl⟩

theorem generate_local_dir_info_snd (fs : FS) (b s bug tag : Str) :
    (generate_local_dir_info fs b s bug tag).2 =
      [("logs", pjoin dir_logs (pjoin (pjoin (pjoin b s) bug) [])),
       ("artifacts", pjoin dir_artifacts (pjoin (pjoin (pjoin b s) bug) [])),
       ("experiment", pjoin dir_experiments (pjoin (pjoin (pjoin b s) bug) [])),
       ("setup", setup_choice fs b s bug tag),
       ("base", pjoin (pjoin (pjoin dir_benchmark b) s) "base".toList),
       ("aux", pjoin (pjoin (pjoin dir_benchmark b) s) ".aux".toList),
       ("patches", pjoin (setup_choice fs b s bug tag) "patches".toList),
       ("localization", pjoin (setup_choice fs b s bug tag) "localization".toList),
       ("selection", pjoin (setup_choice fs b s bug tag) "selection".toList),
       ("validation", pjoin (setup_choice fs b s bug tag) "validation".toList),
       ("bugs", pjoin (setup_choice fs b s bug tag) "bugs".toList)] := rfl

theorem lookupRole_gen_logs (fs : FS) (b s bug tag : Str) :
    lookupRole (generate_local_dir_info fs b s bug tag).2 "logs" =
      some (pjoin dir_logs (pjoin (pjoin (pjoin b s) bug) [])) := rfl

theorem lookupRole_gen_artifacts (fs : FS) (b s bug tag : Str) :
    lookupRole (generate_local_dir_info fs b s bug tag).2 "artifacts" =
      some (pjoin dir_artifacts (pjoin (pjoin (pjoin b s) bug) [])) := rfl

theorem lookupRole_gen_experiment (fs : FS) (b s bug tag : Str) :
    lookupRole (generate_local_dir_info fs b s bug tag).2 "experiment" =
      some (pjoin dir_experiments (pjoin (pjoin (pjoin b s) bug) [])) := rfl

theorem lookupRole_gen_setup (fs : FS) (b s bug tag : Str) :
    lookupRole (generate_local_dir_info fs b s bug tag).2 "setup" =
      some (setup_choice fs b s bug tag) := rfl

theorem lookupRole_gen_base (fs : FS) (b s bug tag : Str) :
    lookupRole (generate_local_dir_info fs b s bug tag).2 "base" =
      some (pjoin (pjoin (pjoin dir_benchmark b) s) "base".toList) := rfl

theorem lookupRole_gen_aux (fs : FS) (b s bug tag : Str) :
    lookupRole (generate_local_dir_info fs b s bug tag).2 "aux" =
      some (pjoin (pjoin (pjoin dir_benchmark b) s) ".aux".toList) := rfl

theorem lookupRole_gen_patches (fs : FS) (b s bug tag : Str) :
    lookupRole (generate_local_dir_info fs b s bug tag).2 "patches" =
      some (pjoin (setup_choice fs b s bug tag) "patches".toList) := rfl

theorem lookupRole_gen_localization (fs : FS) (b s bug tag : Str) :
    lookupRole (generate_local_dir_info fs b s bug tag).2 "localization" =
      some (pjoin (setup_choice fs b s bug tag) "localization".toList) := rfl

theorem lookupRole_gen_selection (fs : FS) (b s bug tag : Str) :
    lookupRole (generate_local_dir_info fs b s bug tag).2 "selection" =
      some (pjoin (setup_choice fs b s bug tag) "selection".toList) := rfl

theorem lookupRole_gen_validation (fs : FS) (b s bug tag : Str) :
    lookupRole (generate_local_dir_info fs b s bug tag).2 "validation" =
      some (pjoin (setup_choice fs b s bug tag) "validation".toList) := rfl

theorem lookupRole_gen_bugs (fs : FS) (b s bug tag : Str) :
    lookupRole (generate_local_dir_info fs b s bug tag).2 "bugs" =
      some (pjoin (setup_choice fs b s bug tag) "bugs".toList) := rfl

/-- C2: if the tag is non-empty and the shadow directory
`{benchmark}/{subject}/{bug}-{tag}/` exists, the resolver returns the
shadow path as `setup` and derives `bugs`, `localization`, `patches`,
`validation` and `selection` under it; if the tag is empty or the shadow
directory is absent, all six roles are rooted at the untagged path. -/
theorem tag_override_setup (fs : FS) (b s bug tag : Str) :
    (tag ≠ [] → isDir fs (shadow_path b s bug tag) = true →
      lookupRole (generate_local_dir_info fs b s bug tag).2 "setup" =
        some (shadow_path b s bug tag) ∧
      lookupRole (generate_local_dir_info fs b s bug tag).2 "bugs" =
        some (pjoin (shadow_path b s bug tag) "bugs".toList) ∧
      lookupRole (generate_local_dir_info fs b s bug tag).2 "localization" =
        some (pjoin (shadow_path b s bug tag) "localization".toList) ∧
      lookupRole (generate_local_dir_info fs b s bug tag).2 "patches" =
        some (pjoin (shadow_path b s bug tag) "patches".toList) ∧
      lookupRole (generate_local_dir_info fs b s bug tag).2 "validation" =
        some (pjoin (shadow_path b s bug tag) "validation".toList) ∧
      lookupRole (generate_local_dir_info fs b s bug tag).2 "selection" =
        some (pjoin (shadow_path b s bug tag) "selection".toList)) ∧
    (tag = [] ∨ isDir fs (shadow_path b s bug tag) = false →
      lookupRole (generate_local_dir_info fs b s bug tag).2 "setup" =
        some (untagged_setup b s bug) ∧
      lookupRole (generate_local_dir_info fs b s bug tag).2 "bugs" =
        some (pjoin (untagged_setup b s bug) "bugs".toList) ∧
      lookupRole (generate_local_dir_info fs b s bug tag).2 "localization" =
        some (pjoin (untagged_setup b s bug) "localization".toList) ∧
      lookupRole (generate_local_dir_info fs b s bug tag).2 "patches" =
        some (pjoin (untagged_setup b s bug) "patches".toList) ∧
      lookupRole (generate_local_dir_info fs b s bug tag).2 "validation" =
        some (pjoin (untagged_setup b s bug) "validation".toList) ∧
      lookupRole (generate_local_dir_info fs b s bug tag).2 "selection" =
        some (pjoin (untagged_setup b s bug) "selection".toList)) := by
  constructor
  · intro ht hd
    have hch : setup_choice fs b s bug tag = shadow_path b s bug tag := by
      simp [setup_choice, ht, hd]
    rw [lookupRole_gen_setup, lookupRole_gen_bugs, lookupRole_gen_localization,
      lookupRole_gen_patches, lookupRole_gen_validation,
      lookupRole_gen_selection, hch]
    exact ⟨rfl, rfl, rfl, rfl, rfl, rfl⟩
  · intro hcase
    have hch : setup_choice fs b s bug tag = untagged_setup b s bug := by
      rcases hcase with h | h
      · simp [setup_choice, h]
      · simp [setup_choice, h]
    rw [lookupRole_gen_setup, lookupRole_gen_bugs, lookupRole_gen_localization,
      lookupRole_gen_patches, lookupRole_gen_validation,
      lookupRole_gen_selection, hch]
    exact ⟨rfl, rfl, rfl, rfl, rfl, rfl⟩

theorem tag_override_setup_witness :
    (lookupRole (generate_local_dir_info
        ⟨[(shadow_path "defects4j".toList "Lang".toList "1".toList "v2".toList,
            [])], []⟩
        "defects4j".toList "Lang".toList "1".toList "v2".toList).2 "setup" =
      some (shadow_path "defects4j".toList "Lang".toList "1".toList
        "v2".toList)) ∧
    (lookupRole (generate_local_dir_info (⟨[], []⟩ : FS)
        "defects4j".toList "Lang".toList "1".toList "v2".toList).2 "setup" =
      some (untagged_setup "defects4j".toList "Lang".toList "1".toList)) := by
  constructor
  · exact ((tag_override_setup _ _ _ _ _).1 (by decide) (by decide)).1
  · exact ((tag_override_setup _ _ _ _ _).2 (Or.inr (by decide))).1

/-- C6: for the ARJA-E driver with valkyrie off, a run whose patch
directory `{dir_output}/patches` holds exactly three `.txt` patch files
and whose captured log consists of lines among which exactly two contain
"One fitness evaluation is finished" and exactly one contains
"failed tests: 0" (and no line contains both markers) yields stats with
`generated = 3`, `enumerations = 2` and `plausible = 1`. -/
theorem arja_analyse_scenario (fs : FS) (dir_output log_path : Str)
    (stats : RepairToolStats) (p1 p2 p3 first : Str) (rest : List Str)
    (hp : listDir fs (pjoin dir_output "patches".toList) = [p1, p2, p3])
    (ht1 : hasSub ".txt".toList p1 = true)
    (ht2 : hasSub ".txt".toList p2 = true)
    (ht3 : hasSub ".txt".toList p3 = true)
    (hlp : log_path ≠ [])
    (hf : isFile fs log_path = true)
    (hr : readFile fs log_path = first :: rest)
    (hA : (first :: rest).countP (fun l => hasSub fitness_line l) = 2)
    (hB : (first :: rest).countP (fun l => hasSub failed_zero_line l) = 1)
    (hAB : (first :: rest).countP
        (fun l => hasSub failed_zero_line l && hasSub fitness_line l) = 0) :
    ∃ st, arja_e_analyse_output fs false dir_output log_path stats = some st ∧
      st.patch_stats.generated = 3 ∧
      st.patch_stats.enumerations = 2 ∧
      st.patch_stats.plaus = 1 := by
  have hcond : ¬ (log_path = [] ∨ isFile fs log_path = false) := by
    simp [hlp, hf]
  have hplaus : (first :: rest).countP
      (fun l => hasSub failed_zero_line l && !hasSub fitness_line l) = 1 := by
    have hsplit := countP_and_not_add (first :: rest)
      (fun l => hasSub fitness_line l) (fun l => hasSub failed_zero_line l)
    omega
  simp only [arja_e_analyse_output, hcond, if_false, hr]
  refine ⟨_, rfl, ?_, ?_, ?_⟩
  · simp only [Bool.if_false_left]
    rw [show (if false = true then "patch-valid".toList else "patches".toList) =
      "patches".toList by rfl] at *
    rw [hp]
    simp [List.filter_cons,
      show hasSub ['.', 't', 'x', 't'] p1 = true from ht1,
      show hasSub ['.', 't', 'x', 't'] p2 = true from ht2,
      show hasSub ['.', 't', 'x', 't'] p3 = true from ht3]
  · rw [arja_foldl_count]
    simpa using hA
  · rw [arja_foldl_count]
    simpa using hplaus

set_option maxRecDepth 40000 in
theorem arja_analyse_scenario_witness :
    ∃ st,
      arja_e_analyse_output
        ⟨[("/out/patches".toList,
            ["p1.txt".toList, "p2.txt".toList, "p3.txt".toList])],
         [("/log.txt".toList,
            ["2024-01-01 00:00:00\n".toList,
             "One fitness evaluation is finished\n".toList,
             "One fitness evaluation is finished\n".toList,
             "failed tests: 0\n".toList,
             "2024-01-01 01:00:00\n".toList])]⟩
        false "/out".toList "/log.txt".toList {} = some st ∧
      st.patch_stats.generated = 3 ∧
      st.patch_stats.enumerations = 2 ∧
      st.patch_stats.plaus = 1 := by
  exact arja_analyse_scenario
    ⟨[("/out/patches".toList,
        ["p1.txt".toList, "p2.txt".toList, "p3.txt".toList])],
     [("/log.txt".toList,
        ["2024-01-01 00:00:00\n".toList,
         "One fitness evaluation is finished\n".toList,
         "One fitness evaluation is finished\n".toList,
         "failed tests: 0\n".toList,
         "2024-01-01 01:00:00\n".toList])]⟩
    "/out".toList "/log.txt".toList {}
    "p1.txt".toList "p2.txt".toList "p3.txt".toList
    "2024-01-01 00:00:00\n".toList
    ["One fitness evaluation is finished\n".toList,
     "One fitness evaluation is finished\n".toList,
     "failed tests: 0\n".toList,
     "2024-01-01 01:00:00\n".toList]
    (by decide) (by decide) (by decide) (by decide) (by decide) (by decide)
    (by decide) (by decide) (by decide) (by decide)

theorem generate_local_dir_info_fst (fs : FS) (b s bug tag : Str) :
    (generate_local_dir_info fs b s bug tag).1 =
      makedirsList (local_dirs_created fs b s bug tag) fs := by
  simp only [generate_local_dir_info, local_dirs_created, setup_choice,
    shadow_path, untagged_setup, makedirsList]

theorem generate_local_tool_dir_info_fst (fs : FS) (b s bug h t tag : Str) :
    (generate_local_tool_dir_info fs b s bug h t tag).1 =
      makedirsList
        [pjoin dir_logs (run_dir_name t h),
         pjoin dir_results (run_dir_name t h),
         pjoin dir_artifacts (run_dir_name t h)]
        (generate_local_dir_info fs b s bug tag).1 := by
  simp only [generate_local_tool_dir_info, makedirsList]

/-- C3 counterexample: a run-scoped log directory surviving from an
earlier run with the same hash is reused with its old contents — it is
not empty immediately after the tool-scoped extension, because the
extension only ensures the directories exist (`exist_ok=True`). -/
theorem tool_extension_not_fresh :
    lookupRole (generate_local_tool_dir_info
        ⟨[(pjoin dir_logs (run_dir_name "arja-e".toList
            "a1b2c3d4ffffffff".toList), ["old.txt".toList])], []⟩
        "defects4j".toList "Lang".toList "1".toList
        "a1b2c3d4ffffffff".toList "arja-e".toList []).2 "logs" =
      some (pjoin dir_logs (run_dir_name "arja-e".toList
        "a1b2c3d4ffffffff".toList)) ∧
    listDir (generate_local_tool_dir_info
        ⟨[(pjoin dir_logs (run_dir_name "arja-e".toList
            "a1b2c3d4ffffffff".toList), ["old.txt".toList])], []⟩
        "defects4j".toList "Lang".toList "1".toList
        "a1b2c3d4ffffffff".toList "arja-e".toList []).1
      (pjoin dir_logs (run_dir_name "arja-e".toList
        "a1b2c3d4ffffffff".toList)) = ["old.txt".toList] ∧
    (["old.txt".toList] : List Str) ≠ [] := by
  refine ⟨rfl, by decide, by decide⟩

/-- C3 amended: the tool-scoped extension replaces exactly the `logs` and
`artifacts` entries and adds a `results` entry, all three under the
run-identifier directory; the three run directories exist after the call,
but they are only ensured (`exist_ok=True`), not freshly emptied: any
directory that already existed keeps its previous contents. -/
theorem tool_extension_roles (fs : FS) (b s bug h t tag : Str) :
    lookupRole (generate_local_tool_dir_info fs b s bug h t tag).2 "logs" =
      some (pjoin dir_logs (run_dir_name t h)) ∧
    lookupRole (generate_local_tool_dir_info fs b s bug h t tag).2 "artifacts" =
      some (pjoin dir_artifacts (run_dir_name t h)) ∧
    lookupRole (generate_local_tool_dir_info fs b s bug h t tag).2 "results" =
      some (pjoin dir_results (run_dir_name t h)) ∧
    (∀ k : String, k ≠ "logs" → k ≠ "artifacts" → k ≠ "results" →
      lookupRole (generate_local_tool_dir_info fs b s bug h t tag).2 k =
        lookupRole (generate_local_dir_info fs b s bug tag).2 k) ∧
    isDir (generate_local_tool_dir_info fs b s bug h t tag).1
      (pjoin dir_logs (run_dir_name t h)) = true ∧
    isDir (generate_local_tool_dir_info fs b s bug h t tag).1
      (pjoin dir_artifacts (run_dir_name t h)) = true ∧
    isDir (generate_local_tool_dir_info fs b s bug h t tag).1
      (pjoin dir_results (run_dir_name t h)) = true ∧
    (∀ d, isDir fs d = true →
      listDir (generate_local_tool_dir_info fs b s bug h t tag).1 d =
        listDir fs d) := by
  refine ⟨?_, ?_, ?_, ?_, ?_, ?_, ?_, ?_⟩
  · simp only [generate_local_tool_dir_info, lookupRole_setk]
    simp
  · simp only [generate_local_tool_dir_info, lookupRole_setk]
    simp
  · simp only [generate_local_tool_dir_info, lookupRole_setk]
    simp
  · intro k h1 h2 h3
    simp only [generate_local_tool_dir_info, lookupRole_setk, h1, h2, h3,
      if_false]
  · rw [generate_local_tool_dir_info_fst, isDir_makedirsList]
    simp [List.contains_cons]
  · rw [generate_local_tool_dir_info_fst, isDir_makedirsList]
    simp [List.contains_cons]
  · rw [generate_local_tool_dir_info_fst, isDir_makedirsList]
    simp [List.contains_cons]
  · intro d hd
    have h1 : isDir (generate_local_dir_info fs b s bug tag).1 d = true := by
      rw [generate_local_dir_info_fst, isDir_makedirsList, hd]
      rfl
    rw [generate_local_tool_dir_info_fst,
      listDir_makedirsList_of_isDir _ _ _ h1,
      generate_local_dir_info_fst,
      listDir_makedirsList_of_isDir _ _ _ hd]

theorem tool_extension_roles_witness :
    lookupRole (generate_local_tool_dir_info (⟨[], []⟩ : FS)
        "defects4j".toList "Lang".toList "1".toList
        "a1b2c3d4ffffffff".toList "arja-e".toList []).2 "setup" =
      lookupRole (generate_local_dir_info (⟨[], []⟩ : FS)
        "defects4j".toList "Lang".toList "1".toList []).2 "setup" ∧
    listDir (generate_local_tool_dir_info
        ⟨[("/pre".toList, ["x".toList])], []⟩
        "defects4j".toList "Lang".toList "1".toList
        "a1b2c3d4ffffffff".toList "arja-e".toList []).1 "/pre".toList =
      ["x".toList] := by
  constructor
  · exact (tool_extension_roles _ _ _ _ _ _ _).2.2.2.1 "setup"
      (by decide) (by decide) (by decide)
  · exact ((tool_extension_roles _ _ _ _ _ _ _).2.2.2.2.2.2.2 "/pre".toList
      (by decide)).trans (by decide)

theorem alookup_map_self (L : List (Str × List Str)) (p : Str) (l : List Str)
    (h : (alookup L p).isSome) :
    alookup (L.map (fun kv => if kv.1 = p then (p, l) else kv)) p = some l := by
  induction L with
  | nil => simp [alookup] at h
  | cons kv rest ih =>
      obtain ⟨k0, v0⟩ := kv
      rw [List.map_cons]
      by_cases hk : k0 = p
      · rw [if_pos hk]
        simp [alookup]
      · rw [if_neg hk]
        simp only [alookup, hk, if_false]
        apply ih
        simpa [alookup, hk] using h

theorem alookup_map_ne (L : List (Str × List Str)) (p : Str) (l : List Str)
    (q : Str) (hq : q ≠ p) :
    alookup (L.map (fun kv => if kv.1 = p then (p, l) else kv)) q =
      alookup L q := by
  induction L with
  | nil => rfl
  | cons kv rest ih =>
      obtain ⟨k0, v0⟩ := kv
      rw [List.map_cons]
      by_cases hk : k0 = p
      · rw [if_pos hk]
        have hpq : ¬ p = q := fun hh => hq hh.symm
        have hkq : ¬ k0 = q := by rw [hk]; exact hpq
        simp only [alookup, hpq, if_false, hkq, ih]
      · rw [if_neg hk]
        simp only [alookup, ih]

theorem alookup_setDir_self (p : Str) (l : List Str) (fs : FS) :
    alookup (setDir p l fs).dirs p = some l := by
  unfold setDir
  split
  · rename_i h
    exact alookup_map_self fs.dirs p l h
  · rename_i h
    have hnone : alookup fs.dirs p = none := by
      cases hl : alookup fs.dirs p with
      | none => rfl
      | some v => exact absurd (by simp [isDir, hl]) h
    simp [alookup_append, hnone, alookup, Option.orElse]

theorem alookup_setDir_ne (p : Str) (l : List Str) (fs : FS) (q : Str)
    (hq : q ≠ p) :
    alookup (setDir p l fs).dirs q = alookup fs.dirs q := by
  unfold setDir
  split
  · exact alookup_map_ne fs.dirs p l q hq
  · rw [alookup_append]
    have hpq : ¬ p = q := fun hh => hq hh.symm
    cases hl : alookup fs.dirs q with
    | none => simp [Option.orElse, alookup, hpq]
    | some v => simp [Option.orElse, hl]

theorem files_setDir (p : Str) (l : List Str) (fs : FS) :
    (setDir p l fs).files = fs.files := by
  unfold setDir; split <;> rfl

theorem fs_ext (a b : FS) (hd : a.dirs = b.dirs) (hf : a.files = b.files) :
    a = b := by
  cases a; cases b; simp_all

theorem alookup_cond_rmtree_self (fs : FS) (dst : Str) :
    alookup (if isDir fs dst = true then rmtree dst fs else fs).dirs dst =
      none := by
  split
  · simp only [rmtree]
    exact alookup_filter_self fs.dirs dst
  · rename_i h
    cases hl : alookup fs.dirs dst with
    | none => rfl
    | some v => exact absurd (by simp [isDir, hl]) h

theorem alookup_cond_rmtree_ne (fs : FS) (dst q : Str) (hq : q ≠ dst) :
    alookup (if isDir fs dst = true then rmtree dst fs else fs).dirs q =
      alookup fs.dirs q := by
  split
  · simp only [rmtree]
    exact alookup_filter_ne fs.dirs dst q hq
  · rfl

theorem files_cond_rmtree (fs : FS) (dst : Str) :
    (if isDir fs dst = true then rmtree dst fs else fs).files = fs.files := by
  split <;> rfl

theorem save_artifacts_step (cfs : Str → Option (List Str)) (fs : FS)
    (dir_info : RoleMap) (name dir_patch base : Str) (ls : List Str)
    (hb : lookupRole dir_info "patches" = some base)
    (hbd : isDir fs base = true)
    (hsd : alookup fs.dirs dir_patch = some ls)
    (hne : dir_patch ≠ [])
    (hdd : pjoin base name ≠ dir_patch) :
    save_artifacts cfs fs dir_info name none dir_patch =
      setDir (pjoin base name) ls
        (if isDir fs (pjoin base name) = true then rmtree (pjoin base name) fs
         else fs) := by
  have hfs1dst := alookup_cond_rmtree_self fs (pjoin base name)
  have hfs1src := alookup_cond_rmtree_ne fs (pjoin base name) dir_patch
    (fun hh => hdd hh.symm)
  unfold save_artifacts
  rw [hb]
  simp only [Option.getD_some]
  rw [if_pos hbd, if_pos hne]
  unfold cp_rf
  rw [hfs1dst, hfs1src.trans hsd]

theorem not_isDir_of_alookup_none (fs : FS) (p : Str)
    (h : alookup fs.dirs p = none) : ¬ (isDir fs p = true) := by
  simp [isDir, h]

theorem isDir_setDir_self (p : Str) (l : List Str) (fs : FS) :
    isDir (setDir p l fs) p = true := by
  simp [isDir, alookup_setDir_self]

theorem isDir_setDir_ne (p : Str) (l : List Str) (fs : FS) (q : Str)
    (hq : q ≠ p) : isDir (setDir p l fs) q = isDir fs q := by
  simp [isDir, alookup_setDir_ne p l fs q hq]

theorem isDir_cond_rmtree_ne (fs : FS) (dst q : Str) (hq : q ≠ dst) :
    isDir (if isDir fs dst = true then rmtree dst fs else fs) q =
      isDir fs q := by
  split
  · simp only [isDir, rmtree]
    rw [alookup_filter_ne fs.dirs dst q hq]
  · rfl

theorem setDir_dirs_of_none (p : Str) (l : List Str) (fs : FS)
    (h : alookup fs.dirs p = none) :
    (setDir p l fs).dirs = fs.dirs ++ [(p, l)] := by
  unfold setDir
  rw [if_neg (not_isDir_of_alookup_none fs p h)]

theorem rmtree_setDir_of_none (p : Str) (l : List Str) (fs : FS)
    (h : alookup fs.dirs p = none) : rmtree p (setDir p l fs) = fs := by
  apply fs_ext
  · simp only [rmtree]
    rw [setDir_dirs_of_none p l fs h, filter_append_single,
      filter_eq_self_of_alookup_none _ _ h]
  · simp only [rmtree]
    exact files_setDir p l fs

/-- C4: with no container active, `save_artifacts` first removes any
existing `patches/{tool_name}` directory under the layout's `patches`
role and then copies the tool's working patch directory there, so
afterwards the destination holds exactly the current run's patch files;
running it twice in succession gives the same end state as running it
once. -/
theorem save_artifacts_spec (cfs : Str → Option (List Str)) (fs : FS)
    (dir_info : RoleMap) (name dir_patch base : Str) (ls : List Str)
    (hb : lookupRole dir_info "patches" = some base)
    (hbd : isDir fs base = true)
    (hsd : alookup fs.dirs dir_patch = some ls)
    (hne : dir_patch ≠ [])
    (hdd : pjoin base name ≠ dir_patch)
    (hdb : pjoin base name ≠ base) :
    listDir (save_artifacts cfs fs dir_info name none dir_patch)
        (pjoin base name) = listDir fs dir_patch ∧
    save_artifacts cfs (save_artifacts cfs fs dir_info name none dir_patch)
        dir_info name none dir_patch =
      save_artifacts cfs fs dir_info name none dir_patch := by
  have hfs1dst := alookup_cond_rmtree_self fs (pjoin base name)
  have hstep1 := save_artifacts_step cfs fs dir_info name dir_patch base ls
    hb hbd hsd hne hdd
  constructor
  · rw [hstep1, listDir, alookup_setDir_self, listDir, hsd]
  · have hbd' : isDir (save_artifacts cfs fs dir_info name none dir_patch)
        base = true := by
      rw [hstep1, isDir_setDir_ne _ _ _ base (fun hh => hdb hh.symm),
        isDir_cond_rmtree_ne fs (pjoin base name) base
          (fun hh => hdb hh.symm)]
      exact hbd
    have hsd' : alookup
        (save_artifacts cfs fs dir_info name none dir_patch).dirs dir_patch =
        some ls := by
      rw [hstep1, alookup_setDir_ne _ _ _ dir_patch (fun hh => hdd hh.symm),
        alookup_cond_rmtree_ne fs (pjoin base name) dir_patch
          (fun hh => hdd hh.symm)]
      exact hsd
    have hstep2 := save_artifacts_step cfs
      (save_artifacts cfs fs dir_info name none dir_patch) dir_info name
      dir_patch base ls hb hbd' hsd' hne hdd
    rw [hstep2, hstep1, if_pos (isDir_setDir_self _ _ _),
      rmtree_setDir_of_none _ _ _ hfs1dst]

theorem save_artifacts_spec_witness :
    listDir (save_artifacts (fun _ => none)
        ⟨[("/setup/patches".toList, ["other".toList]),
          ("/work/patch".toList, ["p1.txt".toList, "p2.txt".toList])], []⟩
        [("patches", "/setup/patches".toList)] "arja_e".toList none
        "/work/patch".toList)
      (pjoin "/setup/patches".toList "arja_e".toList) =
      ["p1.txt".toList, "p2.txt".toList] ∧
    save_artifacts (fun _ => none)
        (save_artifacts (fun _ => none)
          ⟨[("/setup/patches".toList, ["other".toList]),
            ("/work/patch".toList, ["p1.txt".toList, "p2.txt".toList])], []⟩
          [("patches", "/setup/patches".toList)] "arja_e".toList none
          "/work/patch".toList)
        [("patches", "/setup/patches".toList)] "arja_e".toList none
        "/work/patch".toList =
      save_artifacts (fun _ => none)
        ⟨[("/setup/patches".toList, ["other".toList]),
          ("/work/patch".toList, ["p1.txt".toList, "p2.txt".toList])], []⟩
        [("patches", "/setup/patches".toList)] "arja_e".toList none
        "/work/patch".toList := by
  have hs := save_artifacts_spec (fun _ => none)
    ⟨[("/setup/patches".toList, ["other".toList]),
      ("/work/patch".toList, ["p1.txt".toList, "p2.txt".toList])], []⟩
    [("patches", "/setup/patches".toList)] "arja_e".toList
    "/work/patch".toList "/setup/patches".toList
    ["p1.txt".toList, "p2.txt".toList]
    (by decide) (by decide) (by decide) (by decide) (by decide) (by decide)
  exact ⟨hs.1.trans (by decide), hs.2⟩

theorem pjoin_bench (x : Str) : pjoin dir_benchmark x = dir_benchmark ++ '/' :: x := by
  unfold pjoin
  rw [if_neg (by decide), if_neg (by decide)]

theorem pjoin_exp (x : Str) :
    pjoin dir_experiments x = dir_experiments ++ '/' :: x := by
  unfold pjoin
  rw [if_neg (by decide), if_neg (by decide)]

theorem shadow_getLast (b s bug tag : Str) :
    (shadow_path b s bug tag).getLast? = some '/' := by
  unfold shadow_path
  have hX : pjoin (pjoin b s) (bug ++ '-' :: tag) ≠ [] := by
    intro hc
    rcases (pjoin_eq_nil_iff _ _).mp hc with ⟨h1, h2⟩
    simp at h2
  have hdp : pjoin (pjoin (pjoin b s) (bug ++ '-' :: tag)) [] ≠ [] := by
    intro hc
    exact hX ((pjoin_eq_nil_iff _ _).mp hc).1
  rw [pjoin_getLast?_of_ne_nil _ _ hdp]
  exact pjoin_nil_right_getLast? _ hX

theorem shadow_ne_pjoin_lit (b s bug tag Z lit : Str) (hlit : lit ≠ [])
    (hc : lit.getLast? ≠ some '/') :
    shadow_path b s bug tag ≠ pjoin Z lit := by
  intro hq
  apply hc
  rw [← pjoin_getLast?_of_ne_nil Z lit hlit, ← hq, shadow_getLast]

theorem shadow_ne_untagged (b s bug tag : Str) (htag : tag ≠ []) :
    shadow_path b s bug tag ≠ untagged_setup b s bug := by
  intro hq
  unfold shadow_path untagged_setup at hq
  rw [pjoin_bench, pjoin_bench] at hq
  have hq2 := List.append_cancel_left hq
  injection hq2 with hh hq3
  have hlen := congrArg List.length hq3
  simp only [] at hlen
  have h1 := pjoin_length_ge (pjoin (pjoin b s) (bug ++ '-' :: tag)) []
  have h2 := pjoin_length_le (pjoin (pjoin b s) bug) []
  have h3 := pjoin_tag_length (pjoin b s) bug tag
  have h4 : 1 ≤ tag.length := by
    cases tag with
    | nil => exact absurd rfl htag
    | cons c cs => simp
  simp only [List.length_nil] at h1 h2
  omega

theorem shadow_ne_exp (b s bug tag : Str) :
    shadow_path b s bug tag ≠
      pjoin dir_experiments (pjoin (pjoin (pjoin b s) bug) []) := by
  intro hq
  unfold shadow_path at hq
  rw [pjoin_bench, pjoin_exp] at hq
  have e1 : (dir_benchmark ++
      '/' :: pjoin (pjoin (pjoin b s) (bug ++ '-' :: tag)) [])[10]? =
      some 'b' := by
    rw [List.getElem?_append_left (by decide)]
    decide
  have e2 : (dir_experiments ++
      '/' :: pjoin (pjoin (pjoin b s) bug) [])[10]? = some 'e' := by
    rw [List.getElem?_append_left (by decide)]
    decide
  rw [hq, e2] at e1
  simp at e1

theorem shadow_not_created (fs : FS) (b s bug tag : Str) (htag : tag ≠ [])
    (hch : setup_choice fs b s bug tag = untagged_setup b s bug) :
    (local_dirs_created fs b s bug tag).contains (shadow_path b s bug tag) =
      false := by
  have h1 := shadow_ne_exp b s bug tag
  have h2 := shadow_ne_untagged b s bug tag htag
  have h3 := shadow_ne_pjoin_lit b s bug tag
    (pjoin (pjoin dir_benchmark b) s) ".aux".toList (by decide) (by decide)
  have h4 := shadow_ne_pjoin_lit b s bug tag
    (pjoin (pjoin dir_benchmark b) s) "base".toList (by decide) (by decide)
  have h5 := shadow_ne_pjoin_lit b s bug tag
    (setup_choice fs b s bug tag) "bugs".toList (by decide) (by decide)
  have h6 := shadow_ne_pjoin_lit b s bug tag
    (setup_choice fs b s bug tag) "patches".toList (by decide) (by decide)
  have h7 := shadow_ne_pjoin_lit b s bug tag
    (setup_choice fs b s bug tag) "localization".toList (by decide) (by decide)
  have h8 := shadow_ne_pjoin_lit b s bug tag
    (setup_choice fs b s bug tag) "validation".toList (by decide) (by decide)
  have h9 := shadow_ne_pjoin_lit b s bug tag
    (setup_choice fs b s bug tag) "selection".toList (by decide) (by decide)
  have h2' : shadow_path b s bug tag ≠ setup_choice fs b s bug tag := by
    rw [hch]; exact h2
  have hexp : shadow_path b s bug tag ≠
      pjoin dir_experiments (pjoin (pjoin (pjoin b s) bug) []) := h1
  simp [local_dirs_created, List.contains_cons, hexp, h2']
  exact ⟨show shadow_path b s bug tag ≠
      pjoin (pjoin (pjoin dir_benchmark b) s) ['.', 'a', 'u', 'x'] from h3,
    show shadow_path b s bug tag ≠
      pjoin (pjoin (pjoin dir_benchmark b) s) ['b', 'a', 's', 'e'] from h4,
    show shadow_path b s bug tag ≠
      pjoin (setup_choice fs b s bug tag) ['b', 'u', 'g', 's'] from h5,
    show shadow_path b s bug tag ≠
      pjoin (setup_choice fs b s bug tag)
        ['p', 'a', 't', 'c', 'h', 'e', 's'] from h6,
    show shadow_path b s bug tag ≠
      pjoin (setup_choice fs b s bug tag)
        ['l', 'o', 'c', 'a', 'l', 'i', 'z', 'a', 't', 'i', 'o', 'n'] from h7,
    show shadow_path b s bug tag ≠
      pjoin (setup_choice fs b s bug tag)
        ['v', 'a', 'l', 'i', 'd', 'a', 't', 'i', 'o', 'n'] from h8,
    show shadow_path b s bug tag ≠
      pjoin (setup_choice fs b s bug tag)
        ['s', 'e', 'l', 'e', 'c', 't', 'i', 'o', 'n'] from h9⟩

/-- C7: the local-layout resolver is idempotent: a second call with the
same arguments (and no other filesystem change) returns the identical
role map and leaves the filesystem unchanged, and after any call the
local directories of the nine roles experiment, setup, aux, base, bugs,
patches, localization, validation and selection all exist, their
creation being an existence-checked `makedirs` over exactly those nine
directories. -/
theorem local_dir_info_idempotent (fs : FS) (b s bug tag : Str) :
    (generate_local_dir_info (generate_local_dir_info fs b s bug tag).1
        b s bug tag).2 = (generate_local_dir_info fs b s bug tag).2 ∧
    (generate_local_dir_info (generate_local_dir_info fs b s bug tag).1
        b s bug tag).1 = (generate_local_dir_info fs b s bug tag).1 ∧
    (∀ role ∈ (["experiment", "setup", "aux", "base", "bugs", "patches",
        "localization", "validation", "selection"] : List String),
      ∃ p, lookupRole (generate_local_dir_info fs b s bug tag).2 role =
          some p ∧
        isDir (generate_local_dir_info fs b s bug tag).1 p = true) := by
  have hstable : setup_choice (generate_local_dir_info fs b s bug tag).1
      b s bug tag = setup_choice fs b s bug tag := by
    by_cases htag : tag = []
    · simp [setup_choice, htag]
    · by_cases hsh : isDir fs (shadow_path b s bug tag) = true
      · have hsh2 : isDir (generate_local_dir_info fs b s bug tag).1
            (shadow_path b s bug tag) = true := by
          rw [generate_local_dir_info_fst, isDir_makedirsList, hsh]
          rfl
        simp [setup_choice, htag, hsh, hsh2]
      · have hF : isDir fs (shadow_path b s bug tag) = false := by
          revert hsh
          cases isDir fs (shadow_path b s bug tag) <;> simp
        have hch : setup_choice fs b s bug tag = untagged_setup b s bug := by
          simp [setup_choice, htag, hsh]
        have hnotc := shadow_not_created fs b s bug tag htag hch
        have hsh2 : isDir (generate_local_dir_info fs b s bug tag).1
            (shadow_path b s bug tag) = false := by
          rw [generate_local_dir_info_fst, isDir_makedirsList, hF, hnotc]
          rfl
        simp [setup_choice, htag, hsh, hsh2]
  have hlist : local_dirs_created (generate_local_dir_info fs b s bug tag).1
      b s bug tag = local_dirs_created fs b s bug tag := by
    simp [local_dirs_created, hstable]
  have hmemdir : ∀ p ∈ local_dirs_created fs b s bug tag,
      isDir (generate_local_dir_info fs b s bug tag).1 p = true := by
    intro p hp
    rw [generate_local_dir_info_fst, isDir_makedirsList]
    have hc : (local_dirs_created fs b s bug tag).contains p = true := by
      simpa using hp
    rw [hc]
    simp
  refine ⟨?_, ?_, ?_⟩
  · rw [generate_local_dir_info_snd, generate_local_dir_info_snd, hstable]
  · rw [generate_local_dir_info_fst
      ((generate_local_dir_info fs b s bug tag).1) b s bug tag, hlist]
    exact makedirsList_of_all_isDir _ _ hmemdir
  · intro role hrole
    simp only [List.mem_cons, List.not_mem_nil, or_false] at hrole
    rcases hrole with h|h|h|h|h|h|h|h|h
    · subst h
      exact ⟨_, lookupRole_gen_experiment fs b s bug tag,
        hmemdir _ (by simp [local_dirs_created])⟩
    · subst h
      exact ⟨_, lookupRole_gen_setup fs b s bug tag,
        hmemdir _ (by simp [local_dirs_created])⟩
    · subst h
      exact ⟨_, lookupRole_gen_aux fs b s bug tag,
        hmemdir _ (by simp [local_dirs_created])⟩
    · subst h
      exact ⟨_, lookupRole_gen_base fs b s bug tag,
        hmemdir _ (by simp [local_dirs_created])⟩
    · subst h
      exact ⟨_, lookupRole_gen_bugs fs b s bug tag,
        hmemdir _ (by simp [local_dirs_created])⟩
    · subst h
      exact ⟨_, lookupRole_gen_patches fs b s bug tag,
        hmemdir _ (by simp [local_dirs_created])⟩
    · subst h
      exact ⟨_, lookupRole_gen_localization fs b s bug tag,
        hmemdir _ (by simp [local_dirs_created])⟩
    · subst h
      exact ⟨_, lookupRole_gen_validation fs b s bug tag,
        hmemdir _ (by simp [local_dirs_created])⟩
    · subst h
      exact ⟨_, lookupRole_gen_selection fs b s bug tag,
        hmemdir _ (by simp [local_dirs_created])⟩

theorem local_dir_info_idempotent_witness :
    (generate_local_dir_info (generate_local_dir_info (⟨[], []⟩ : FS)
        "defects4j".toList "Lang".toList "1".toList []).1
        "defects4j".toList "Lang".toList "1".toList []).1 =
      (generate_local_dir_info (⟨[], []⟩ : FS)
        "defects4j".toList "Lang".toList "1".toList []).1 ∧
    (∃ p, lookupRole (generate_local_dir_info (⟨[], []⟩ : FS)
          "defects4j".toList "Lang".toList "1".toList []).2 "patches" =
        some p ∧
      isDir (generate_local_dir_info (⟨[], []⟩ : FS)
          "defects4j".toList "Lang".toList "1".toList []).1 p = true) := by
  exact ⟨(local_dir_info_idempotent (⟨[], []⟩ : FS) "defects4j".toList
      "Lang".toList "1".toList []).2.1,
    (local_dir_info_idempotent (⟨[], []⟩ : FS) "defects4j".toList
      "Lang".toList "1".toList []).2.2 "patches" (by simp)⟩
